import Mathlib

/-!
Shallow embedding of the JSON document core of this repository:
the tagged-union tree value `JsonNode` (src/lib/json/JsonNode.cpp), its
type-coercion and accessor rules, JSON-pointer resolution, and the
serializer `JsonWriter` (src/lib/json/JsonWriter.cpp).

Modelling conventions:
- `si64` is modelled as `Int`; `double` is modelled as `ℚ` (the claims under
  consideration exercise only exact values; `static_cast<si64>(double)`
  truncates toward zero, modelled by `Int.tdiv` on numerator and denominator).
- `std::string` is modelled as `String` (a list of characters); the pointer
  grammar and the escaping loop work on `List Char` directly, mirroring the
  index arithmetic of the C++ code.
- `JsonVector` (std::vector of JsonNode) is a `List JsonNode`; `JsonMap`
  (std::map from std::string to JsonNode, declared in JsonNode.h which is
  outside the excerpt) is an association list ordered by key; claims settled
  here never depend on the comparator, only on exact-key lookup and on
  concrete literal maps given already in iteration order.
- C++ assertions are modelled as no-ops (NDEBUG semantics), matching the
  release behaviour the spec itself describes for the const accessors.
- C++ methods that return references into the tree are modelled as pure
  functions; a mutating method is modelled by a function returning the
  updated tree, and a const method by a read-only function, so the
  absence of mutation on const paths is by construction.
-/

mutual

/-- Payload of a node: the seven alternatives of the `JsonData` std::variant
(monostate, bool, double, std::string, JsonVector, JsonMap, si64), in the
variant's declaration order. -/
inductive JsonData : Type where
  | null : JsonData
  | bool (b : Bool) : JsonData
  | float (f : ℚ) : JsonData
  | str (s : String) : JsonData
  | vec (elems : List JsonNode) : JsonData
  | struct (entries : List (String × JsonNode)) : JsonData
  | int (i : Int) : JsonData

/-- A JSON tree node: the payload plus the side-channel `meta` provenance
string and `flags` tags carried by every JsonNode. -/
inductive JsonNode : Type where
  | mk (data : JsonData) (meta : String) (flags : List String) : JsonNode

end

/-- Discriminants of `JsonNode::JsonType`, in the order of the C++ enum
(which equals the variant index used by `getType`). -/
inductive JsonType : Type where
  | null | bool | float | str | vector | struct | integer
  deriving DecidableEq

/-- Embeds `JsonNode::getType`: the discriminant of the active payload. -/
def JsonNode.getType : JsonNode → JsonType
  | .mk .null _ _ => .null
  | .mk (.bool _) _ _ => .bool
  | .mk (.float _) _ _ => .float
  | .mk (.str _) _ _ => .str
  | .mk (.vec _) _ _ => .vector
  | .mk (.struct _) _ _ => .struct
  | .mk (.int _) _ _ => .integer

/-- Projection of the `meta` field. -/
def JsonNode.meta : JsonNode → String
  | .mk _ m _ => m

/-- Projection of the `flags` field. -/
def JsonNode.flags : JsonNode → List String
  | .mk _ _ f => f

/-- Embeds the shared static `nullNode` sentinel (a default-constructed
node, which is Null with empty meta and flags). -/
def nullNode : JsonNode := .mk .null "" []

/-- Truncation toward zero of a rational, embedding
`static_cast<si64>(double)` as used by the Integer accessors and `setType`.
`Int.tdiv` is T-division (rounds toward zero); the rational is in lowest
terms with positive denominator. -/
def ratTrunc (q : ℚ) : Int := (q.num).tdiv (q.den : Int)

/-- Embeds the const accessor `JsonNode::Bool() const`: the stored boolean
on a Bool node, otherwise the static `boolDefault` (false). The C++
assertion (type is Null or Bool) is a no-op here. -/
def constBool : JsonNode → Bool
  | .mk (.bool b) _ _ => b
  | _ => false

/-- Embeds the const accessor `JsonNode::Float() const`: the stored double
on a Float node, the widened integer on an Integer node, otherwise the
static `floatDefault` (0). The C++ assertion is a no-op here. -/
def constFloat : JsonNode → ℚ
  | .mk (.float f) _ _ => f
  | .mk (.int i) _ _ => (i : ℚ)
  | _ => 0

/-- Embeds the const accessor `JsonNode::Integer() const`: the stored
integer on an Integer node, the double truncated toward zero on a Float
node, otherwise the static `integerDefault` (0). The C++ assertion is a
no-op here. -/
def constInteger : JsonNode → Int
  | .mk (.int i) _ _ => i
  | .mk (.float f) _ _ => ratTrunc f
  | _ => 0

/-- Embeds the const accessor `JsonNode::String() const`: the stored string
on a String node, otherwise the static `stringDefault` (empty). The C++
assertion is a no-op here. -/
def constString : JsonNode → String
  | .mk (.str s) _ _ => s
  | _ => ""

/-- Embeds the const accessor `JsonNode::Vector() const`: the stored
sequence on a Vector node, otherwise the static `vectorDefault` (empty).
The C++ assertion is a no-op here. -/
def constVector : JsonNode → List JsonNode
  | .mk (.vec xs) _ _ => xs
  | _ => []

/-- Embeds the const accessor `JsonNode::Struct() const`: the stored
mapping on a Struct node, otherwise the static `mapDefault` (empty). The
C++ assertion is a no-op here. -/
def constStruct : JsonNode → List (String × JsonNode)
  | .mk (.struct es) _ _ => es
  | _ => []

/-- Default payload installed by `JsonNode::setType` for each target type
(the switch at the end of setType). -/
def defaultData : JsonType → JsonData
  | .null => .null
  | .bool => .bool false
  | .float => .float 0
  | .str => .str ""
  | .vector => .vec []
  | .struct => .struct []
  | .integer => .int 0

/-- Embeds `JsonNode::setType`: no-op when the type already matches;
Float to Integer truncates toward zero; Integer to Float widens; every
other transition installs the default payload for the new type. The meta
and flags fields are untouched (the C++ method assigns only `data`). -/
def JsonNode.setType (n : JsonNode) (t : JsonType) : JsonNode :=
  if n.getType = t then n
  else
    match n, t with
    | .mk (.float f) m fl, .integer => .mk (.int (ratTrunc f)) m fl
    | .mk (.int i) m fl, .float => .mk (.float (i : ℚ)) m fl
    | .mk _ m fl, _ => .mk (defaultData t) m fl

/-- Whitespace recognised by `std::isspace` in the default C locale, as
used by `boost::algorithm::trim`. -/
def isSpaceChar (c : Char) : Bool :=
  c = ' ' || c = '\t' || c = '\n' || c = '\x0B' || c = '\x0C' || c = '\r'

/-- Embeds `boost::algorithm::trim`: drop leading and trailing whitespace. -/
def strTrim (s : String) : String :=
  ⟨((s.data.dropWhile isSpaceChar).reverse.dropWhile isSpaceChar).reverse⟩

/-- Embeds `boost::algorithm::to_lower` (default C locale: ASCII letters
only, which is exactly what `Char.toLower` does). -/
def strToLower (s : String) : String := ⟨s.data.map Char.toLower⟩

/-- Embeds `JsonNode::TryBoolFromString`. The C++ signature returns the
bool value and reports success through an out-parameter; here the pair
is (success, value). -/
def JsonNode.TryBoolFromString (n : JsonNode) : Bool × Bool :=
  match n with
  | .mk (.bool b) _ _ => (true, b)
  | .mk (.str s) _ _ =>
    let t := strToLower (strTrim s)
    if t = "true" then (true, true)
    else if t = "false" then (true, false)
    else (false, false)
  | _ => (false, false)

mutual

/-- Embeds `JsonNode::isCompact`: true for every scalar; for a Vector,
true iff every element is compact (the loop returns false at the first
non-compact element); for a Struct, true for zero entries, the first
entry's compactness for exactly one entry, false otherwise. -/
def isCompact : JsonNode → Bool
  | .mk (.vec elems) _ _ => allCompact elems
  | .mk (.struct entries) _ _ =>
    match entries with
    | [] => true
    | [(_, v)] => isCompact v
    | _ => false
  | _ => true

/-- The element loop of `isCompact` over a Vector payload. -/
def allCompact : List JsonNode → Bool
  | [] => true
  | e :: rest => isCompact e && allCompact rest

end

/-- Embeds `std::map::find` on the association-list model: the mapped
node for an exactly matching key, else none. -/
def mapFind : List (String × JsonNode) → String → Option JsonNode
  | [], _ => none
  | (k, v) :: rest, key => if k = key then some v else mapFind rest key

/-- Embeds `std::map::operator[]` insertion: if the key is absent a
default-constructed (Null) node is inserted at its ordered position;
an existing key leaves the map unchanged. -/
def mapInsertDefault : List (String × JsonNode) → String → List (String × JsonNode)
  | [], key => [(key, nullNode)]
  | (k, v) :: rest, key =>
    if key < k then (key, nullNode) :: (k, v) :: rest
    else if key = k then (k, v) :: rest
    else (k, v) :: mapInsertDefault rest key

/-- Embeds `std::vector::resize` with default-constructed (Null) fill. -/
def vecResize (xs : List JsonNode) (newLen : Nat) : List JsonNode :=
  if newLen ≤ xs.length then xs.take newLen
  else xs ++ List.replicate (newLen - xs.length) nullNode

/-- Embeds the const `JsonNode::operator[](const std::string &)`: looks
the key up in `Struct()` (const accessor, so a non-Struct node reads the
empty default map) and returns the shared null sentinel when absent.
Being a const method it cannot modify the tree, which the pure reading
here models literally. -/
def JsonNode.indexConstKey (n : JsonNode) (key : String) : JsonNode :=
  match mapFind (constStruct n) key with
  | some v => v
  | none => nullNode

/-- Embeds the mutable `JsonNode::operator[](const std::string &)` as a
tree transformer: `Struct()` first coerces the node to Struct via
`setType`, then map indexing inserts the missing key with a Null value.
The returned reference aliases the slot at `key` in the resulting tree. -/
def JsonNode.indexMutKey (n : JsonNode) (key : String) : JsonNode :=
  match n.setType .struct with
  | .mk (.struct es) m fl => .mk (.struct (mapInsertDefault es key)) m fl
  | other => other

/-- Embeds the const `JsonNode::operator[](size_t)`: the element when the
index is in range of `Vector()` (const accessor), else the shared null
sentinel; the tree is never modified. -/
def JsonNode.indexConstNat (n : JsonNode) (i : Nat) : JsonNode :=
  if i < (constVector n).length then (constVector n).getD i nullNode else nullNode

/-- Embeds the mutable `JsonNode::operator[](size_t)` as a tree
transformer: `Vector()` first coerces the node to Vector via `setType`;
when the index is out of range the vector is resized to index + 1
(filling with Null). The returned reference aliases slot `i`. -/
def JsonNode.indexMutNat (n : JsonNode) (i : Nat) : JsonNode :=
  match n.setType .vector with
  | .mk (.vec xs) m fl =>
    if xs.length ≤ i then .mk (.vec (vecResize xs (i + 1))) m fl
    else .mk (.vec xs) m fl
  | other => other

/-- Decimal reading performed by `boost::lexical_cast` on an all-digit
string (the resolver has already rejected anything else). -/
def parseNat (cs : List Char) : Nat :=
  cs.foldl (fun a c => a * 10 + (c.toNat - 48)) 0

/-- Failures of the pointer resolver: `invalidPointer` is the thrown
`std::runtime_error("Invalid Json pointer")`; `lexicalCastFail` is the
`boost::bad_lexical_cast` raised when the segment is empty (an empty
string passes the all-digit scan but cannot be read as a number). -/
inductive ResolveError : Type where
  | invalidPointer
  | lexicalCastFail
  deriving DecidableEq

/-- Embeds the file-local template `resolvePointer(Node &, const
std::string &)` of JsonNode.cpp, instantiated on the const path. The
pointer is split after the leading slash into the first segment `entry`
(up to the next slash) and `remainer` (from that slash on). On a Vector
node the segment must be all digits without a leading zero; a within-range
index recurses into the element, and an out-of-range index falls through
to the final `in[entry]` line, i.e. const string indexing of the Vector
node. Every other node type resolves `entry` by const string indexing.
The C++ `assert(pointer[0] == slash)` is a no-op here: the split drops
the first character unconditionally, exactly as `substr(1, ...)` does. -/
def resolvePtr (n : JsonNode) (p : List Char) : Except ResolveError JsonNode :=
  match p with
  | [] => .ok n
  | _ :: cs =>
    let entry := cs.takeWhile (fun c => c ≠ '/')
    let remainer := cs.dropWhile (fun c => c ≠ '/')
    if n.getType = .vector then
      if entry.any (fun c => !c.isDigit) then .error .invalidPointer
      else if 1 < entry.length ∧ entry.head? = some '0' then .error .invalidPointer
      else if entry.isEmpty then .error .lexicalCastFail
      else if parseNat entry < (constVector n).length then
        resolvePtr ((constVector n).getD (parseNat entry) nullNode) remainer
      else
        resolvePtr (n.indexConstKey ⟨entry⟩) remainer
    else
      resolvePtr (n.indexConstKey ⟨entry⟩) remainer
termination_by p.length
decreasing_by
  all_goals
    simp only [List.length_cons]
    have h := (List.dropWhile_sublist (l := cs) (fun c => decide (c ≠ '/'))).length_le
    omega

/-- Embeds the const `JsonNode::resolvePointer(const std::string &)`. -/
def JsonNode.resolvePointer (n : JsonNode) (s : String) : Except ResolveError JsonNode :=
  resolvePtr n s.data

/-- Raw characters translated by `JsonWriter::writeString` (the `escaped`
table: quote, backslash, backspace, form feed, newline, carriage return,
tab, forward slash). -/
def escaped : List Char := ['\"', '\\', '\x08', '\x0C', '\n', '\r', '\t', '/']

/-- Escape-code characters written after a backslash for each entry of
`escaped`, in the same order (the `escaped_code` table). -/
def escaped_code : List Char := ['\"', '\\', 'b', 'f', 'n', 'r', 't', '/']

/-- Embeds `out.write(string.data() + start, stop - start)`: the run of
characters of `arr` from index `start` (inclusive) to `stop` (exclusive). -/
def substrRun (arr : List Char) (start stop : Nat) : List Char :=
  (arr.drop start).take (stop - start)

/-- Embeds the scanning loop of `JsonWriter::writeString` literally:
`pos` is the cursor, `start` the beginning of the pending verbatim run,
`acc` the output written so far. A backslash followed by an escape-code
character is skipped as a pair; a character found in `escaped` flushes
the pending run and emits backslash plus its code; anything else only
advances the cursor. On exit the pending run is flushed. -/
def wsLoop (arr : List Char) (pos start : Nat) (acc : List Char) : List Char :=
  if _h : pos < arr.length then
    if arr.getD pos ' ' = '\\' ∧ pos + 1 < arr.length
        ∧ escaped_code.contains (arr.getD (pos + 1) ' ') then
      wsLoop arr (pos + 2) start acc
    else
      match escaped.findIdx? (fun c => c = arr.getD pos ' ') with
      | some i =>
        wsLoop arr (pos + 1) (pos + 1)
          (acc ++ substrRun arr start pos ++ ['\\', escaped_code.getD i ' '])
      | none => wsLoop arr (pos + 1) start acc
  else acc ++ substrRun arr start pos
termination_by arr.length - pos

/-- Embeds `JsonWriter::writeString`: a literal quote, the translated
body, a literal quote. -/
def writeString (s : String) : String :=
  ⟨'\"' :: (wsLoop s.data 0 0 [] ++ ['\"'])⟩

/-- Specification-level translation of one character, following the words
of the spec (section 4.3): a character in the escape table becomes a
backslash plus its code, anything else is copied verbatim. Used only to
state the refinement of `wsLoop`; the executable embedding of the source
is `wsLoop` itself. -/
def codeFor (c : Char) : List Char :=
  match escaped.findIdx? (fun x => x = c) with
  | some i => ['\\', escaped_code.getD i ' ']
  | none => [c]

/-- Specification-level escaping of a whole body, following the words of
the spec: a backslash immediately followed by an escape-code character is
copied through unchanged as a pair and the scan skips both; otherwise the
head character is translated by the table and the scan advances one. -/
def escapeSpec : List Char → List Char
  | [] => []
  | [c] => codeFor c
  | c :: c2 :: rest =>
    if c = '\\' ∧ escaped_code.contains c2 then c :: c2 :: escapeSpec rest
    else codeFor c ++ escapeSpec (c2 :: rest)

/-- Stand-in for `out << double` (platform default formatting of the
Float payload). The textual format of floats is outside the scope of the
claims settled here; no theorem below depends on this definition's output. -/
def formatFloat (q : ℚ) : String := toString q

/-- Embeds `out << si64`: decimal formatting of the integer payload. -/
def formatInt (i : Int) : String := toString i

/-- Embeds `boost::algorithm::join(flags, ", ")` over the flags tags. -/
def joinComma : List String → String
  | [] => ""
  | [s] => s
  | s :: rest => s ++ ", " ++ joinComma rest

/-- Embeds the comment lines emitted by `JsonWriter::writeEntry` before
an entry in non-compact mode: the meta line, then the flags line, each
prefixed by the indentation. -/
def entryComments (indent : String) (n : JsonNode) : String :=
  (if n.meta = "" then "" else indent ++ " // " ++ n.meta ++ "\n")
    ++ (if n.flags = [] then "" else indent ++ " // flags: " ++ joinComma n.flags ++ "\n")

/-- The part of `JsonWriter::writeEntry` before the value: comments and
indentation in non-compact mode, nothing in compact mode. -/
def entryPre (cm : Bool) (indent : String) (n : JsonNode) : String :=
  if cm then "" else entryComments indent n ++ indent

/-- Embeds the compactMode update at the top of `JsonWriter::writeNode`:
the transient flag becomes active when the caller-requested `compact`
flag is set, the flag is not already active, and the node is compact;
otherwise it keeps its current value. -/
def effectiveCompactMode (compact compactMode : Bool) (n : JsonNode) : Bool :=
  if compact && !compactMode && isCompact n then true else compactMode

mutual

/-- Embeds `JsonWriter::writeNode`. The writer's mutable members are
threaded explicitly: `compact` is the caller flag, `cm` the transient
compactMode on entry, `indent` the indentation prefix. The C++ method
saves compactMode on entry and restores it on exit, which the functional
reading models by computing the effective mode locally; callers keep
their own `cm`. -/
def writeNode (compact cm : Bool) (indent : String) (n : JsonNode) : String :=
  let cm2 := effectiveCompactMode compact cm n
  match n with
  | .mk .null _ _ => "null"
  | .mk (.bool b) _ _ => if b then "true" else "false"
  | .mk (.float f) _ _ => formatFloat f
  | .mk (.str s) _ _ => writeString s
  | .mk (.vec elems) _ _ =>
    "[" ++ (if cm2 then " " else "\n")
      ++ vecContainer compact cm2 indent elems
      ++ (if cm2 then " " else indent) ++ "]"
  | .mk (.struct entries) _ _ =>
    "\x7b" ++ (if cm2 then " " else "\n")
      ++ mapContainer compact cm2 indent entries
      ++ (if cm2 then " " else indent) ++ "\x7d"
  | .mk (.int i) _ _ => formatInt i

/-- Embeds `JsonWriter::writeContainer` over a Vector payload: nothing
when empty; otherwise the indentation deepens by one tab, the first
entry is written, each further entry is preceded by the separator, and
a final newline is emitted in non-compact mode (the C++ then restores
the prefix, which the explicit `indent ++ tab` argument models). -/
def vecContainer (compact cm : Bool) (indent : String) (elems : List JsonNode) : String :=
  match elems with
  | [] => ""
  | e :: rest =>
    entryPre cm (indent ++ "\t") e ++ writeNode compact cm (indent ++ "\t") e
      ++ vecRest compact cm (indent ++ "\t") rest
      ++ (if cm then "" else "\n")

/-- The separator-then-entry loop of `writeContainer` over the remaining
Vector elements. -/
def vecRest (compact cm : Bool) (indent : String) (elems : List JsonNode) : String :=
  match elems with
  | [] => ""
  | e :: rest =>
    (if cm then ", " else ",\n")
      ++ entryPre cm indent e ++ writeNode compact cm indent e
      ++ vecRest compact cm indent rest

/-- Embeds `JsonWriter::writeContainer` over a Struct payload; a map
entry is rendered as the escaped key, a spaced colon, and the value
(`writeEntry(JsonMap::const_iterator)`). -/
def mapContainer (compact cm : Bool) (indent : String) (entries : List (String × JsonNode)) :
    String :=
  match entries with
  | [] => ""
  | (k, v) :: rest =>
    entryPre cm (indent ++ "\t") v ++ writeString k ++ " : "
      ++ writeNode compact cm (indent ++ "\t") v
      ++ mapRest compact cm (indent ++ "\t") rest
      ++ (if cm then "" else "\n")

/-- The separator-then-entry loop of `writeContainer` over the remaining
Struct entries. -/
def mapRest (compact cm : Bool) (indent : String) (entries : List (String × JsonNode)) : String :=
  match entries with
  | [] => ""
  | (k, v) :: rest =>
    (if cm then ", " else ",\n")
      ++ entryPre cm indent v ++ writeString k ++ " : "
      ++ writeNode compact cm indent v
      ++ mapRest compact cm indent rest

end

/-- Embeds `JsonNode::toJson`: a fresh writer (compactMode off, empty
prefix) rendering the node. -/
def toJson (compact : Bool) (n : JsonNode) : String :=
  writeNode compact false "" n

/-- The tree `\x7b"a": [10, 20]\x7d` used by the spec's pointer-resolution
test cases. -/
def demoTree : JsonNode :=
  .mk (.struct [("a", .mk (.vec [.mk (.int 10) "" [], .mk (.int 20) "" []]) "" [])]) "" []

/-- The `a` array inside `demoTree`. -/
def demoArr : JsonNode :=
  .mk (.vec [.mk (.int 10) "" [], .mk (.int 20) "" []]) "" []

/-- The mapping node `\x7b"name": "Ann", "tags": ["x","y"]\x7d` of the
spec's serialization scenario (entries in map iteration order). -/
def node3 : JsonNode :=
  .mk (.struct
    [("name", .mk (.str "Ann") "" []),
     ("tags", .mk (.vec [.mk (.str "x") "" [], .mk (.str "y") "" []]) "" [])]) "" []

/-- A compact one-entry mapping used to exhibit the compactMode
activation behaviour. -/
def node1 : JsonNode := .mk (.struct [("a", .mk (.int 1) "" [])]) "" []

/-- Appending one more in-range character to a take of a list. -/
theorem take_succ_getD (d : Char) :
    ∀ (l : List Char) (k : Nat), k < l.length → l.take (k + 1) = l.take k ++ [l.getD k d] := by
  intro l
  induction l with
  | nil => intro k hk; simp at hk
  | cons a as ih =>
    intro k hk
    cases k with
    | zero => simp
    | succ k =>
      simp only [List.take_succ_cons, List.getD_cons_succ]
      rw [ih k (by simpa using hk)]
      simp

/-- Reading inside a dropped list is reading at a shifted index. -/
theorem getD_drop (d : Char) :
    ∀ (arr : List Char) (s k : Nat), (arr.drop s).getD k d = arr.getD (s + k) d := by
  intro arr
  induction arr with
  | nil => intro s k; simp
  | cons a as ih =>
    intro s k
    cases s with
    | zero => simp
    | succ s =>
      simp only [List.drop_succ_cons]
      rw [ih s k]
      have h1 : s + 1 + k = (s + k) + 1 := by omega
      rw [h1, List.getD_cons_succ]

/-- Extending a pending run by one character. -/
theorem substrRun_snoc (arr : List Char) (start pos : Nat) (h1 : start ≤ pos)
    (h2 : pos < arr.length) :
    substrRun arr start (pos + 1) = substrRun arr start pos ++ [arr.getD pos ' '] := by
  unfold substrRun
  have hk : pos - start < (arr.drop start).length := by
    simp only [List.length_drop]; omega
  have h3 : pos + 1 - start = (pos - start) + 1 := by omega
  rw [h3, take_succ_getD ' ' _ _ hk, getD_drop]
  congr 3
  omega

/-- Peeling the head character off a dropped suffix. -/
theorem drop_cons_getD (arr : List Char) (pos : Nat) (h : pos < arr.length) :
    arr.drop pos = arr.getD pos ' ' :: arr.drop (pos + 1) := by
  rw [List.drop_eq_getElem_cons h]
  congr 1
  simp [List.getD_eq_getElem?_getD, List.getElem?_eq_getElem h]

/-- Invariant of the `writeString` scanning loop: from any cursor
position, the remaining output is the already-flushed text, then the
pending verbatim run, then the specification-level escaping of the
unscanned suffix. -/
theorem wsLoop_spec_fuel (arr : List Char) :
    ∀ (fuel pos start : Nat) (acc : List Char), arr.length - pos ≤ fuel → start ≤ pos →
      pos ≤ arr.length →
      wsLoop arr pos start acc = acc ++ substrRun arr start pos ++ escapeSpec (arr.drop pos) := by
  intro fuel
  induction fuel with
  | zero =>
    intro pos start acc hf hsp hpl
    have hpos : ¬ pos < arr.length := by omega
    rw [wsLoop]
    simp only [dif_neg hpos]
    have h0 : arr.drop pos = [] := List.drop_eq_nil_of_le (by omega)
    rw [h0, escapeSpec]
    simp
  | succ fuel ih =>
  intro pos start acc hf hsp hpl
  rw [wsLoop]
  by_cases hpos : pos < arr.length
  · simp only [dif_pos hpos]
    have hdrop := drop_cons_getD arr pos hpos
    by_cases hpair : arr.getD pos ' ' = '\\' ∧ pos + 1 < arr.length
        ∧ escaped_code.contains (arr.getD (pos + 1) ' ')
    · rw [if_pos hpair]
      obtain ⟨hc, hlt, hcode⟩ := hpair
      have hdrop2 := drop_cons_getD arr (pos + 1) hlt
      rw [ih (pos + 2) start acc (by omega) (by omega) (by omega)]
      rw [hdrop, hdrop2]
      have h1 : substrRun arr start (pos + 2)
          = substrRun arr start pos ++ [arr.getD pos ' ', arr.getD (pos + 1) ' '] := by
        rw [substrRun_snoc arr start (pos + 1) (by omega) (by omega),
          substrRun_snoc arr start pos (by omega) hpos]
        simp
      rw [h1]
      rw [show escapeSpec (arr.getD pos ' ' :: arr.getD (pos + 1) ' ' :: arr.drop (pos + 2))
            = arr.getD pos ' ' :: arr.getD (pos + 1) ' ' :: escapeSpec (arr.drop (pos + 2)) from by
        rw [escapeSpec]
        rw [if_pos ⟨hc, hcode⟩]]
      simp
    · rw [if_neg hpair]
      rcases hfind : escaped.findIdx? (fun c => c = arr.getD pos ' ') with _ | i
      · dsimp only
        rw [ih (pos + 1) start acc (by omega) (by omega) (by omega)]
        rw [hdrop]
        rw [substrRun_snoc arr start pos hsp hpos]
        have hspec : escapeSpec (arr.getD pos ' ' :: arr.drop (pos + 1))
            = arr.getD pos ' ' :: escapeSpec (arr.drop (pos + 1)) := by
          rcases h2 : arr.drop (pos + 1) with _ | ⟨c2, rest⟩
          · simp only [escapeSpec, codeFor, hfind]
          · rw [escapeSpec]
            have hlt2 : pos + 1 < arr.length := by
              have h3 := congrArg List.length h2
              simp only [List.length_drop, List.length_cons] at h3
              omega
            have hc2 : arr.getD (pos + 1) ' ' = c2 := by
              have h4 := drop_cons_getD arr (pos + 1) hlt2
              rw [h2] at h4
              exact (List.cons.injEq .. ▸ h4).1.symm
            rw [if_neg]
            · simp only [codeFor, hfind]
              simp
            · intro hcontra
              rcases hcontra with ⟨hbsl, hcont⟩
              rw [hbsl] at hfind
              simp [escaped, List.findIdx?] at hfind
        rw [hspec]
        simp
      · dsimp only
        rw [ih (pos + 1) (pos + 1)
          (acc ++ substrRun arr start pos ++ ['\\', escaped_code.getD i ' '])
          (by omega) (by omega) (by omega)]
        rw [hdrop]
        have hself : substrRun arr (pos + 1) (pos + 1) = [] := by
          simp [substrRun]
        rw [hself]
        have hspec : escapeSpec (arr.getD pos ' ' :: arr.drop (pos + 1))
            = ['\\', escaped_code.getD i ' '] ++ escapeSpec (arr.drop (pos + 1)) := by
          rcases h2 : arr.drop (pos + 1) with _ | ⟨c2, rest⟩
          · simp only [escapeSpec, codeFor, hfind]
            simp
          · rw [escapeSpec]
            have hlt2 : pos + 1 < arr.length := by
              have h3 := congrArg List.length h2
              simp only [List.length_drop, List.length_cons] at h3
              omega
            have hc2 : arr.getD (pos + 1) ' ' = c2 := by
              have h4 := drop_cons_getD arr (pos + 1) hlt2
              rw [h2] at h4
              exact (List.cons.injEq .. ▸ h4).1.symm
            rw [if_neg]
            · simp only [codeFor, hfind]
            · intro hcontra
              rcases hcontra with ⟨hbsl, hcont⟩
              exact hpair ⟨hbsl, hlt2, hc2 ▸ hcont⟩
        rw [hspec]
        simp
  · simp only [dif_neg hpos]
    have h0 : arr.drop pos = [] := List.drop_eq_nil_of_le (by omega)
    rw [h0]
    rw [escapeSpec]
    simp

/-- The scanning loop started at the beginning computes exactly the
specification-level escaping of the whole body. -/
theorem wsLoop_spec (arr : List Char) : wsLoop arr 0 0 [] = escapeSpec arr := by
  have h := wsLoop_spec_fuel arr arr.length 0 0 [] (by omega) (by omega) (by omega)
  simpa [substrRun] using h

/-- The element loop of `isCompact` agrees with `List.all`. -/
theorem allCompact_eq_all : ∀ xs : List JsonNode, allCompact xs = xs.all isCompact := by
  intro xs
  induction xs with
  | nil => rfl
  | cons e rest ih => simp [allCompact, ih, List.all_cons]

/-- C1: the claim says resolving an out-of-bounds decimal index on a
Sequence returns the sequence node itself unchanged. The code disagrees:
the early return for the in-range case falls through, for an out-of-range
index, to the final string-indexing line, which on the const path calls
the const Struct() accessor on a Vector node (violating that accessor's
own assertion) and yields the null sentinel. This theorem evaluates the
resolver on the spec's own test tree: the empty pointer and the in-bounds
cases behave as claimed, but resolving /a/5 returns the null sentinel,
which differs from the a array. -/
theorem resolvePointer_out_of_bounds_eval :
    demoTree.resolvePointer "" = .ok demoTree
    ∧ demoTree.resolvePointer "/a/0" = .ok (.mk (.int 10) "" [])
    ∧ demoTree.resolvePointer "/a" = .ok demoArr
    ∧ demoTree.resolvePointer "/a/5" = .ok nullNode
    ∧ nullNode ≠ demoArr := by
  refine ⟨?_, ?_, ?_, ?_, ?_⟩
  · simp [JsonNode.resolvePointer, resolvePtr]
  · simp [JsonNode.resolvePointer, resolvePtr, demoTree, JsonNode.indexConstKey,
      constStruct, mapFind, constVector, parseNat, JsonNode.getType, nullNode]
  · simp [JsonNode.resolvePointer, resolvePtr, demoTree, demoArr, JsonNode.indexConstKey,
      constStruct, mapFind, constVector, parseNat, JsonNode.getType, nullNode]
  · simp [JsonNode.resolvePointer, resolvePtr, demoTree, JsonNode.indexConstKey,
      constStruct, mapFind, constVector, parseNat, JsonNode.getType, nullNode]
  · simp [nullNode, demoArr]

/-- C4: for every input string, `writeString` emits a leading and
trailing literal quote around the translated body, and the body is the
specification-level escaping: a backslash immediately followed by one of
the eight escape-code characters is copied through unchanged as a pair,
any other character of the escape table is replaced by its two-character
escape sequence, and every remaining character is copied verbatim. -/
theorem writeString_escape_refinement (s : String) :
    writeString s = ⟨'\"' :: (escapeSpec s.data ++ ['\"'])⟩ := by
  rw [writeString, wsLoop_spec]

/-- C4 witness: the spec's own example, evaluated concretely. -/
theorem writeString_escape_refinement_witness :
    writeString "He said \"hi\"\\n" = "\"He said \\\"hi\\\"\\n\""
    ∧ (⟨'\"' :: (escapeSpec ("He said \"hi\"\\n").data ++ ['\"'])⟩ : String)
        = "\"He said \\\"hi\\\"\\n\"" := by
  constructor
  · rw [writeString_escape_refinement "He said \"hi\"\\n"]
    decide
  · decide

/-- C8: `isCompact` is true for every scalar type (Null, Bool, Integer,
Float, String); for a Sequence node it is true exactly when every element
is compact; for a Mapping node it is true for zero entries, equals the
compactness of the single value for exactly one entry, and is false for
two or more entries. -/
theorem isCompact_spec :
    (∀ m fl, isCompact (.mk .null m fl) = true)
    ∧ (∀ b m fl, isCompact (.mk (.bool b) m fl) = true)
    ∧ (∀ q m fl, isCompact (.mk (.float q) m fl) = true)
    ∧ (∀ s m fl, isCompact (.mk (.str s) m fl) = true)
    ∧ (∀ i m fl, isCompact (.mk (.int i) m fl) = true)
    ∧ (∀ xs m fl, isCompact (.mk (.vec xs) m fl) = xs.all isCompact)
    ∧ (∀ m fl, isCompact (.mk (.struct []) m fl) = true)
    ∧ (∀ k v m fl, isCompact (.mk (.struct [(k, v)]) m fl) = isCompact v)
    ∧ (∀ e1 e2 es m fl, isCompact (.mk (.struct (e1 :: e2 :: es)) m fl) = false) := by
  refine ⟨fun m fl => rfl, fun b m fl => rfl, fun q m fl => rfl, fun s m fl => rfl,
    fun i m fl => rfl, ?_, fun m fl => rfl, ?_, ?_⟩
  · intro xs m fl
    simp only [isCompact]
    exact allCompact_eq_all xs
  · intro k v m fl
    simp [isCompact]
  · intro e1 e2 es m fl
    rcases e1 with ⟨k1, v1⟩
    rcases e2 with ⟨k2, v2⟩
    simp [isCompact]

/-- C9: when pointer resolution reaches a Sequence node, a first path
segment containing a non-decimal-digit character, or a segment longer
than one character starting with a zero, fails with the invalid-pointer
error. -/
theorem resolvePtr_vector_invalid_segment (xs : List JsonNode) (m : String)
    (fl : List String) (cs : List Char)
    (hbad : (cs.takeWhile (fun c => c ≠ '/')).any (fun c => !c.isDigit) = true
        ∨ (1 < (cs.takeWhile (fun c => c ≠ '/')).length
            ∧ (cs.takeWhile (fun c => c ≠ '/')).head? = some '0')) :
    resolvePtr (.mk (.vec xs) m fl) ('/' :: cs) = .error .invalidPointer := by
  rcases hbad with h1 | h2
  · rw [resolvePtr]
    dsimp only [JsonNode.getType]
    rw [if_pos rfl, if_pos h1]
  · rcases hany : (cs.takeWhile (fun c => c ≠ '/')).any (fun c => !c.isDigit) with _ | _
    · rw [resolvePtr]
      dsimp only [JsonNode.getType]
      rw [if_pos rfl, if_neg (by rw [hany]; exact Bool.false_ne_true), if_pos h2]
    · rw [resolvePtr]
      dsimp only [JsonNode.getType]
      rw [if_pos rfl, if_pos hany]

/-- C9 witness: resolving the segment 01 (leading zero) on a
one-element sequence fails with the invalid-pointer error. -/
theorem resolvePtr_vector_invalid_segment_witness :
    (1 < (("01".data : List Char).takeWhile (fun c => c ≠ '/')).length
      ∧ (("01".data : List Char).takeWhile (fun c => c ≠ '/')).head? = some '0')
    ∧ resolvePtr (.mk (.vec [nullNode]) "" []) ('/' :: "01".data) = .error .invalidPointer :=
  ⟨⟨by decide, by decide⟩,
   resolvePtr_vector_invalid_segment [nullNode] "" [] "01".data
     (Or.inr ⟨by decide, by decide⟩)⟩

/-- C2 counterexample: the claim activates compactMode when the caller's
compact flag is false. On the code the guard requires the flag to be
true: with compact false, a compact one-entry mapping does not activate
compactMode and renders multi-line, not single-line. -/
theorem compactMode_not_activated_when_compact_false :
    isCompact node1 = true
    ∧ effectiveCompactMode false false node1 = false
    ∧ toJson false node1 = "\x7b\n\t\"a\" : 1\n\x7d" := by
  refine ⟨by decide, by decide, ?_⟩
  have h1 : toJson false node1 = "\x7b\n" ++ ("\t\"a\" : " ++ toString (1 : Int) ++ "\n") ++ "\x7d" := by
    simp [toJson, writeNode, vecContainer, vecRest, mapContainer, mapRest, entryPre,
      entryComments, effectiveCompactMode, isCompact, allCompact, writeString, wsLoop,
      substrRun, escaped, escaped_code, formatInt, joinComma, node1,
      JsonNode.meta, JsonNode.flags]
  rw [h1]
  rfl

/-- C2 (amended): during writeNode, when the caller-requested compact
flag is TRUE, the transient compactMode flag is not yet active, and the
node satisfies isCompact, the writer activates compactMode for the
duration of rendering that subtree (restored on exit, which the explicit
threading models): the subtree renders exactly as it would with
compactMode already active. -/
theorem writeNode_compactMode_activation (indent : String) (n : JsonNode)
    (h : isCompact n = true) :
    effectiveCompactMode true false n = true
    ∧ writeNode true false indent n = writeNode true true indent n := by
  constructor
  · simp [effectiveCompactMode, h]
  · obtain ⟨d, m, fl⟩ := n
    cases d <;> simp [writeNode, effectiveCompactMode, h]

/-- C2 witness: the compact one-entry mapping renders identically
whether compactMode is activated on entry or already active. -/
theorem writeNode_compactMode_activation_witness :
    isCompact node1 = true
    ∧ writeNode true false "" node1 = writeNode true true "" node1 :=
  ⟨by decide, (writeNode_compactMode_activation "" node1 (by decide)).2⟩

/-- C3 counterexample: on the two-entry mapping of the scenario,
toJson(true) does not produce the claimed single-line text (the root
mapping has two entries, so isCompact fails on it and the document stays
pretty-printed at top level). -/
theorem toJson_compact_scenario_not_single_line :
    toJson true node3 ≠ "\x7b \"name\" : \"Ann\", \"tags\" : [ \"x\", \"y\" ] \x7d" := by
  have h : toJson true node3 = "\x7b\n\t\"name\" : \"Ann\",\n\t\"tags\" : [ \"x\", \"y\" ]\n\x7d" := by
    simp [toJson, writeNode, vecContainer, vecRest, mapContainer, mapRest, entryPre,
      entryComments, effectiveCompactMode, isCompact, allCompact, writeString, wsLoop,
      substrRun, escaped, escaped_code, formatInt, joinComma, node3,
      JsonNode.meta, JsonNode.flags]
  rw [h]
  decide

/-- C3 (amended): for the mapping node of the scenario, toJson(true)
produces exactly the text consisting of an opening brace, a newline, the
tab-indented name entry, a comma and newline, the tab-indented tags
entry whose array is rendered single-line, a newline, and the closing
brace: only the compact tags subtree collapses to one line, while the
two-entry root stays pretty-printed. -/
theorem toJson_compact_scenario_actual :
    toJson true node3 = "\x7b\n\t\"name\" : \"Ann\",\n\t\"tags\" : [ \"x\", \"y\" ]\n\x7d" := by
  simp [toJson, writeNode, vecContainer, vecRest, mapContainer, mapRest, entryPre,
    entryComments, effectiveCompactMode, isCompact, allCompact, writeString, wsLoop,
    substrRun, escaped, escaped_code, formatInt, joinComma, node3,
    JsonNode.meta, JsonNode.flags]

/-- C5: setType is a no-op on the current type; Float to Integer
truncates the payload toward zero; Integer to Float widens it; every
other transition installs the default payload for the new type (nothing
for Null, false for Bool, 0 for Integer, 0 for Float, empty String,
empty Sequence, empty Mapping), discarding the old payload. -/
theorem setType_spec (n : JsonNode) (t : JsonType) :
    (n.getType = t → n.setType t = n)
    ∧ (∀ q m fl, JsonNode.setType (.mk (.float q) m fl) .integer = .mk (.int (ratTrunc q)) m fl)
    ∧ (∀ i m fl, JsonNode.setType (.mk (.int i) m fl) .float = .mk (.float (i : ℚ)) m fl)
    ∧ (n.getType ≠ t → ¬(n.getType = .float ∧ t = .integer)
        → ¬(n.getType = .integer ∧ t = .float)
        → n.setType t = .mk (defaultData t) n.meta n.flags)
    ∧ defaultData .null = .null ∧ defaultData .bool = .bool false
    ∧ defaultData .integer = .int 0 ∧ defaultData .float = .float 0
    ∧ defaultData .str = .str "" ∧ defaultData .vector = .vec []
    ∧ defaultData .struct = .struct [] := by
  refine ⟨?_, ?_, ?_, ?_, rfl, rfl, rfl, rfl, rfl, rfl, rfl⟩
  · intro h
    rw [JsonNode.setType.eq_def, if_pos h]
  · intro q m fl
    rw [JsonNode.setType.eq_def, if_neg (by simp [JsonNode.getType])]
  · intro i m fl
    rw [JsonNode.setType.eq_def, if_neg (by simp [JsonNode.getType])]
  · intro h1 h2 h3
    obtain ⟨d, m, fl⟩ := n
    cases d <;> cases t <;>
      simp_all [JsonNode.setType, JsonNode.getType, JsonNode.meta, JsonNode.flags, defaultData]

/-- C5 witness: a no-op retype, a payload-discarding retype, and the
numeric conversions, at concrete nodes. -/
theorem setType_spec_witness :
    JsonNode.setType (.mk (.bool true) "" []) .bool = .mk (.bool true) "" []
    ∧ JsonNode.setType (.mk (.str "x") "" []) .bool = .mk (defaultData .bool) "" []
    ∧ JsonNode.setType (.mk (.float (Rat.divInt 39 10)) "" []) .integer
        = .mk (.int (ratTrunc (Rat.divInt 39 10))) "" []
    ∧ ratTrunc (Rat.divInt 39 10) = 3
    ∧ JsonNode.setType (.mk (.int 5) "" []) .float = .mk (.float ((5 : Int) : ℚ)) "" [] :=
  ⟨(setType_spec (.mk (.bool true) "" []) .bool).1 rfl,
   (setType_spec (.mk (.str "x") "" []) .bool).2.2.2.1 (by decide) (by decide) (by decide),
   (setType_spec nullNode .null).2.1 (Rat.divInt 39 10) "" [],
   by decide,
   (setType_spec nullNode .null).2.2.1 5 "" []⟩

/-- C6: TryBoolFromString on a Bool node succeeds with the stored value;
on a String node it trims surrounding whitespace and lower-cases, then
succeeds with true on exactly "true", succeeds with false on exactly
"false", and fails (success flag false, value false) otherwise; on every
other node type it fails with the success flag false. -/
theorem TryBoolFromString_spec :
    (∀ b m fl, JsonNode.TryBoolFromString (.mk (.bool b) m fl) = (true, b))
    ∧ (∀ s m fl, strToLower (strTrim s) = "true" →
        JsonNode.TryBoolFromString (.mk (.str s) m fl) = (true, true))
    ∧ (∀ s m fl, strToLower (strTrim s) = "false" →
        JsonNode.TryBoolFromString (.mk (.str s) m fl) = (true, false))
    ∧ (∀ s m fl, strToLower (strTrim s) ≠ "true" → strToLower (strTrim s) ≠ "false" →
        JsonNode.TryBoolFromString (.mk (.str s) m fl) = (false, false))
    ∧ (∀ m fl, JsonNode.TryBoolFromString (.mk .null m fl) = (false, false))
    ∧ (∀ q m fl, JsonNode.TryBoolFromString (.mk (.float q) m fl) = (false, false))
    ∧ (∀ i m fl, JsonNode.TryBoolFromString (.mk (.int i) m fl) = (false, false))
    ∧ (∀ xs m fl, JsonNode.TryBoolFromString (.mk (.vec xs) m fl) = (false, false))
    ∧ (∀ es m fl, JsonNode.TryBoolFromString (.mk (.struct es) m fl) = (false, false)) := by
  refine ⟨fun b m fl => rfl, ?_, ?_, ?_, fun m fl => rfl, fun q m fl => rfl,
    fun i m fl => rfl, fun xs m fl => rfl, fun es m fl => rfl⟩
  · intro s m fl h
    simp [JsonNode.TryBoolFromString, h]
  · intro s m fl h
    simp [JsonNode.TryBoolFromString, h]
  · intro s m fl h1 h2
    simp [JsonNode.TryBoolFromString, h1, h2]

/-- C6 witness: the spec's examples, evaluated concretely. -/
theorem TryBoolFromString_spec_witness :
    JsonNode.TryBoolFromString (.mk (.str "  TRUE  ") "" []) = (true, true)
    ∧ JsonNode.TryBoolFromString (.mk (.str "yes") "" []) = (false, false)
    ∧ JsonNode.TryBoolFromString (.mk (.int 7) "" []) = (false, false) :=
  ⟨TryBoolFromString_spec.2.1 "  TRUE  " "" [] (by decide),
   TryBoolFromString_spec.2.2.2.1 "yes" "" [] (by decide) (by decide),
   TryBoolFromString_spec.2.2.2.2.2.2.1 7 "" []⟩

/-- Inserting a missing key with the map's default makes that key map to
the null node. -/
theorem mapFind_insertDefault_self (es : List (String × JsonNode)) (key : String)
    (h : mapFind es key = none) :
    mapFind (mapInsertDefault es key) key = some nullNode := by
  induction es with
  | nil => simp [mapInsertDefault, mapFind]
  | cons e rest ih =>
    rcases e with ⟨k, v⟩
    rw [mapFind] at h
    by_cases hk : k = key
    · simp [hk] at h
    · rw [if_neg hk] at h
      rw [mapInsertDefault]
      by_cases hlt : key < k
      · rw [if_pos hlt, mapFind, if_pos rfl]
      · rw [if_neg hlt]
        have hne : ¬ key = k := fun hh => hk hh.symm
        rw [if_neg hne, mapFind, if_neg hk]
        exact ih h

/-- Inserting a key leaves the lookup of every other key unchanged. -/
theorem mapFind_insertDefault_other (es : List (String × JsonNode)) (key k2 : String)
    (hne : k2 ≠ key) :
    mapFind (mapInsertDefault es key) k2 = mapFind es k2 := by
  induction es with
  | nil =>
    simp only [mapInsertDefault, mapFind]
    rw [if_neg (fun h => hne h.symm)]
  | cons e rest ih =>
    rcases e with ⟨k, v⟩
    rw [mapInsertDefault]
    by_cases hlt : key < k
    · rw [if_pos hlt, mapFind, if_neg (fun h => hne h.symm)]
    · rw [if_neg hlt]
      by_cases heq : key = k
      · rw [if_pos heq]
      · rw [if_neg heq, mapFind, mapFind]
        by_cases hk2 : k = k2
        · rw [if_pos hk2, if_pos hk2]
        · rw [if_neg hk2, if_neg hk2]
          exact ih

/-- C7: const string indexing of a Mapping without the key returns the
null sentinel (and, being a pure read, inserts nothing); mutable string
indexing creates the missing key with a Null value and leaves every
other key's binding unchanged; const integer indexing of a Sequence out
of range returns the null sentinel without touching the sequence;
mutable integer indexing out of range grows the sequence to index + 1
elements, keeping the existing elements and filling the rest with Null. -/
theorem index_frame_spec :
    (∀ es m fl key, mapFind es key = none →
        JsonNode.indexConstKey (.mk (.struct es) m fl) key = nullNode)
    ∧ (∀ es m fl key, mapFind es key = none →
        JsonNode.indexMutKey (.mk (.struct es) m fl) key
            = .mk (.struct (mapInsertDefault es key)) m fl
        ∧ mapFind (mapInsertDefault es key) key = some nullNode
        ∧ ∀ k2, k2 ≠ key → mapFind (mapInsertDefault es key) k2 = mapFind es k2)
    ∧ (∀ xs m fl i, xs.length ≤ i →
        JsonNode.indexConstNat (.mk (.vec xs) m fl) i = nullNode)
    ∧ (∀ xs m fl i, xs.length ≤ i →
        constVector (JsonNode.indexMutNat (.mk (.vec xs) m fl) i)
            = xs ++ List.replicate (i + 1 - xs.length) nullNode
        ∧ (xs ++ List.replicate (i + 1 - xs.length) nullNode).length = i + 1) := by
  refine ⟨?_, ?_, ?_, ?_⟩
  · intro es m fl key h
    simp [JsonNode.indexConstKey, constStruct, h]
  · intro es m fl key h
    refine ⟨?_, mapFind_insertDefault_self es key h, fun k2 hk2 => mapFind_insertDefault_other es key k2 hk2⟩
    simp [JsonNode.indexMutKey, JsonNode.setType, JsonNode.getType]
  · intro xs m fl i h
    rw [JsonNode.indexConstNat]
    rw [if_neg]
    simp [constVector]
    omega
  · intro xs m fl i h
    constructor
    · simp [JsonNode.indexMutNat, JsonNode.setType, JsonNode.getType, constVector,
        vecResize, h, (show ¬ i + 1 ≤ xs.length by omega)]
    · simp
      omega

/-- C7 witness: the four behaviours at concrete inputs. -/
theorem index_frame_spec_witness :
    JsonNode.indexConstKey (.mk (.struct [("a", .mk (.int 1) "" [])]) "" []) "b" = nullNode
    ∧ mapFind (mapInsertDefault [("a", .mk (.int 1) "" [])] "b") "b" = some nullNode
    ∧ JsonNode.indexConstNat (.mk (.vec [nullNode, nullNode]) "" []) 5 = nullNode
    ∧ constVector (JsonNode.indexMutNat (.mk (.vec [nullNode]) "" []) 2)
        = [nullNode] ++ List.replicate (2 + 1 - [nullNode].length) nullNode :=
  ⟨index_frame_spec.1 [("a", .mk (.int 1) "" [])] "" [] "b" rfl,
   (index_frame_spec.2.1 [("a", .mk (.int 1) "" [])] "" [] "b" rfl).2.1,
   index_frame_spec.2.2.1 [nullNode, nullNode] "" [] 5 (by decide),
   (index_frame_spec.2.2.2 [nullNode] "" [] 2 (by decide)).1⟩

/-- C10: with assertions treated as no-ops, every const typed accessor
is a total pure function: it returns the stored payload on the matching
type (Integer on a Float node truncates toward zero, Float on an
Integer node widens), and on every other node type, including mismatched
non-null types, it returns the static default (false, 0, 0, empty
string, empty sequence, empty mapping). -/
theorem const_accessors_spec (n : JsonNode) :
    (∀ b m fl, constBool (.mk (.bool b) m fl) = b)
    ∧ (n.getType ≠ .bool → constBool n = false)
    ∧ (∀ q m fl, constFloat (.mk (.float q) m fl) = q)
    ∧ (∀ i m fl, constFloat (.mk (.int i) m fl) = (i : ℚ))
    ∧ (n.getType ≠ .float → n.getType ≠ .integer → constFloat n = 0)
    ∧ (∀ i m fl, constInteger (.mk (.int i) m fl) = i)
    ∧ (∀ q m fl, constInteger (.mk (.float q) m fl) = ratTrunc q)
    ∧ (n.getType ≠ .integer → n.getType ≠ .float → constInteger n = 0)
    ∧ (∀ s m fl, constString (.mk (.str s) m fl) = s)
    ∧ (n.getType ≠ .str → constString n = "")
    ∧ (∀ xs m fl, constVector (.mk (.vec xs) m fl) = xs)
    ∧ (n.getType ≠ .vector → constVector n = [])
    ∧ (∀ es m fl, constStruct (.mk (.struct es) m fl) = es)
    ∧ (n.getType ≠ .struct → constStruct n = []) := by
  obtain ⟨d, m0, fl0⟩ := n
  cases d <;>
    refine ⟨fun b m fl => rfl, ?_, fun q m fl => rfl, fun i m fl => rfl, ?_,
      fun i m fl => rfl, fun q m fl => rfl, ?_, fun s m fl => rfl, ?_,
      fun xs m fl => rfl, ?_, fun es m fl => rfl, ?_⟩ <;>
    intros <;>
    first
      | rfl
      | (exfalso; simp_all [JsonNode.getType])

/-- C10 witness: mismatched non-null reads return the static defaults;
the numeric cross-reads convert. -/
theorem const_accessors_spec_witness :
    constString (.mk (.int 7) "" []) = ""
    ∧ constBool (.mk (.str "x") "" []) = false
    ∧ constVector (.mk (.bool true) "" []) = []
    ∧ constInteger (.mk (.float (Rat.divInt 39 10)) "" []) = ratTrunc (Rat.divInt 39 10) :=
  ⟨(const_accessors_spec (.mk (.int 7) "" [])).2.2.2.2.2.2.2.2.2.1 (by decide),
   (const_accessors_spec (.mk (.str "x") "" [])).2.1 (by decide),
   (const_accessors_spec (.mk (.bool true) "" [])).2.2.2.2.2.2.2.2.2.2.2.1 (by decide),
   (const_accessors_spec nullNode).2.2.2.2.2.2.1 (Rat.divInt 39 10) "" []⟩
